import Mathlib

/-!
Shallow embedding of `pkg/kubelet/stats/cri_stats_provider_windows.go`.

The file under verification converts per-container network statistics,
obtained from the Windows host compute service (hcsshim), into the
kubelet statistics API model.  The embedding models the hcsshim layer
(`hcsShimInterface`) as a structure of `Except`-returning functions, a
container handle as the outcomes of the two methods the code calls on
it (`Statistics`, `Close`), and Go's fallible calls as `Except`.
`time.Time` is modelled as `Nat`, `uint64` counters as `Nat` (no
arithmetic is performed on them), Go pointers (`*uint64`) as `Option
Nat` (`none` = nil), and the Go map built by `listContainerNetworkStats`
as an association list with overwrite-on-insert.  Struct fields the code
never reads are omitted.
-/

namespace CriStatsWindows

/-- Errors flowing through the hcsshim layer and `fetchContainerStats`.
`closeAfterError q c` embeds the wrapped error built by
`fmt.Errorf("failed to close container after error %v; close error: %v", q, c)`;
`str` embeds any other (opaque) error value. -/
inductive GoError where
  | str : String → GoError
  | closeAfterError : GoError → GoError → GoError
deriving DecidableEq, Repr

/-- Rendering of a `GoError` to its message, following the `fmt.Errorf`
format string used in `fetchContainerStats`. -/
def GoError.render : GoError → String
  | .str s => s
  | .closeAfterError e c =>
      "failed to close container after error " ++ e.render ++ "; close error: " ++ c.render

/-- hcsshim.ContainerProperties; only the `ID` field is read by this file. -/
structure ContainerProperties where
  ID : String
deriving DecidableEq, Repr

/-- hcsshim.NetworkStats: one raw per-endpoint counter record.  The fields
the code reads are `BytesReceived`, `BytesSent` and `EndpointId`; the
packet/drop counters and `InstanceId` are never read and are omitted. -/
structure NetworkStats where
  BytesReceived : Nat
  BytesSent : Nat
  EndpointId : String
deriving DecidableEq, Repr

/-- hcsshim.Statistics; the code reads only `Timestamp` (time.Time,
modelled as `Nat`) and `Network`. -/
structure Statistics where
  Timestamp : Nat
  Network : List NetworkStats
deriving DecidableEq, Repr

/-- hcsshim.HNSEndpoint; only the `Name` field is read. -/
structure HNSEndpoint where
  Name : String
deriving DecidableEq, Repr

/-- statsapi.InterfaceStats.  `RxBytes`/`TxBytes` are `*uint64` in Go,
modelled as `Option Nat` with `none` for a nil pointer.  `RxErrors` and
`TxErrors` are never assigned by this file and are omitted. -/
structure InterfaceStats where
  Name : String
  RxBytes : Option Nat
  TxBytes : Option Nat
deriving DecidableEq, Repr

/-- The Go zero value of statsapi.InterfaceStats: empty name, nil pointers. -/
def zeroInterfaceStats : InterfaceStats :=
  { Name := "", RxBytes := none, TxBytes := none }

/-- statsapi.NetworkStats: `Time`, the embedded `InterfaceStats` of the
default (primary) interface, and the `Interfaces` slice. -/
structure NetworkStatsResult where
  Time : Nat
  InterfaceStats : CriStatsWindows.InterfaceStats
  Interfaces : List CriStatsWindows.InterfaceStats
deriving DecidableEq, Repr

/-- hcsshim.Container: the handle returned by `OpenContainer`.  The code
calls exactly two methods on it, `Statistics()` and `Close()`; the model
records the outcome each of those calls would produce during this pass. -/
structure Container where
  statistics : Except GoError Statistics
  close : Except GoError Unit

/-- hcsshim.ComputeSystemQuery; only `Types` is set by the code. -/
structure ComputeSystemQuery where
  Types : List String

/-- hcsShimInterface: the capability surface over the host compute
service (`GetContainers`, `GetHNSEndpointByID`, `OpenContainer`). -/
structure HcsShim where
  GetContainers : ComputeSystemQuery → Except GoError (List ContainerProperties)
  GetHNSEndpointByID : String → Except GoError HNSEndpoint
  OpenContainer : String → Except GoError Container

/-- fetchContainerStats.  The first component is the Go `(stats, err)`
pair collapsed to `Except` (callers only use `stats` when `err` is nil).
The second component counts how many times `container.Close()` ran on
the taken path: the `defer` in the source runs the close exactly when
`OpenContainer` succeeded, and merges a close failure into the returned
error (wrapping both when the statistics query had already failed). -/
def fetchContainerStats (shim : HcsShim) (c : ContainerProperties) :
    Except GoError Statistics × Nat :=
  match shim.OpenContainer c.ID with
  | .error e => (.error e, 0)
  | .ok container =>
      let r := container.statistics
      let r' :=
        match container.close with
        | .ok _ => r
        | .error closeErr =>
            match r with
            | .error e => .error (GoError.closeAfterError e closeErr)
            | .ok _ => .error closeErr
      (r', 1)

/-- hcsStatsToInterfaceStats: resolves one raw counter's endpoint to a
named interface record. -/
def hcsStatsToInterfaceStats (shim : HcsShim) (stat : NetworkStats) :
    Except GoError InterfaceStats :=
  match shim.GetHNSEndpointByID stat.EndpointId with
  | .error e => .error e
  | .ok endpoint =>
      .ok { Name := endpoint.Name
            RxBytes := some stat.BytesReceived
            TxBytes := some stat.BytesSent }

/-- The for-loop of hcsStatsToNetworkStats, with `result.Interfaces` and
the `adapters` name set (sets.String, modelled as the list of inserted
names) threaded as accumulators.  A failed endpoint resolution is logged
and skipped; an already-seen adapter name is skipped; otherwise the
interface is appended and its name inserted. -/
def aggregateLoop (shim : HcsShim) :
    List NetworkStats → List InterfaceStats → List String → List InterfaceStats
  | [], interfaces, _ => interfaces
  | stat :: rest, interfaces, adapters =>
      match hcsStatsToInterfaceStats shim stat with
      | .error _ => aggregateLoop shim rest interfaces adapters
      | .ok iStat =>
          if adapters.contains iStat.Name then
            aggregateLoop shim rest interfaces adapters
          else
            aggregateLoop shim rest (interfaces ++ [iStat]) (adapters ++ [iStat.Name])

/-- hcsStatsToNetworkStats: builds the result with `Time` set and
`Interfaces` initialised empty, runs the loop, then sets the embedded
`InterfaceStats` to `Interfaces[0]` when the slice is non-empty (it
otherwise keeps the Go zero value it was initialised with). -/
def hcsStatsToNetworkStats (shim : HcsShim) (timestamp : Nat)
    (hcsStats : List NetworkStats) : NetworkStatsResult :=
  let interfaces := aggregateLoop shim hcsStats [] []
  { Time := timestamp
    InterfaceStats :=
      match interfaces with
      | [] => zeroInterfaceStats
      | i :: _ => i
    Interfaces := interfaces }

/-- Go map insertion `m[k] = v`: any existing binding for `k` is replaced. -/
def mapInsert : List (String × NetworkStatsResult) → String → NetworkStatsResult →
    List (String × NetworkStatsResult)
  | [], k, v => [(k, v)]
  | p :: rest, k, v =>
      if p.1 = k then mapInsert rest k v else p :: mapInsert rest k v

/-- Go map lookup `m[k]`. -/
def mapLookup (m : List (String × NetworkStatsResult)) (k : String) :
    Option NetworkStatsResult :=
  match m with
  | [] => none
  | p :: rest => if p.1 = k then some p.2 else mapLookup rest k

/-- The for-loop of listContainerNetworkStats: for each enumerated
container, fetch its statistics; on error log and continue; when the
raw `Network` slice is non-empty, insert the aggregated result under the
container's ID. -/
def collectLoop (shim : HcsShim) :
    List ContainerProperties → List (String × NetworkStatsResult) →
      List (String × NetworkStatsResult)
  | [], stats => stats
  | c :: rest, stats =>
      match (fetchContainerStats shim c).1 with
      | .error _ => collectLoop shim rest stats
      | .ok cstats =>
          if cstats.Network.length > 0 then
            collectLoop shim rest
              (mapInsert stats c.ID
                (hcsStatsToNetworkStats shim cstats.Timestamp cstats.Network))
          else
            collectLoop shim rest stats

/-- listContainerNetworkStats: enumerates compute systems of type
"Container" (an enumeration failure is returned as-is), then folds
`collectLoop` over the descriptors starting from the empty map.  The
shim is obtained via `newHcsShim` in the source (production shim or the
injected test double); the embedding takes it as a parameter. -/
def listContainerNetworkStats (shim : HcsShim) :
    Except GoError (List (String × NetworkStatsResult)) :=
  match shim.GetContainers { Types := ["Container"] } with
  | .error e => .error e
  | .ok containers => .ok (collectLoop shim containers [])

/-- The successful per-counter resolutions, in input order: specification
device for the deduplication claims, describing what the loop would see
before the adapter-name filter. -/
def resolvedSeq (shim : HcsShim) (hcsStats : List NetworkStats) :
    List InterfaceStats :=
  hcsStats.filterMap (fun stat => (hcsStatsToInterfaceStats shim stat).toOption)

/-- Specification device for the adapter-name filter inside the loop of
hcsStatsToNetworkStats: keep an interface when its name has not been
seen yet, threading the set of seen names. -/
def dedupFirst : List InterfaceStats → List String → List InterfaceStats
  | [], _ => []
  | i :: rest, seen =>
      if seen.contains i.Name then dedupFirst rest seen
      else i :: dedupFirst rest (seen ++ [i.Name])

/-! ### Concrete test doubles, used by the witness theorems -/

/-- Endpoint table used by the concrete shims: `ep1` and `ep2` both
resolve to adapter `eth0`, `ep3` resolves to `eth1`, `epX` fails. -/
def endpointTable (endpointID : String) : Except GoError HNSEndpoint :=
  if endpointID = "ep1" then .ok { Name := "eth0" }
  else if endpointID = "ep2" then .ok { Name := "eth0" }
  else if endpointID = "ep3" then .ok { Name := "eth1" }
  else .error (.str "endpoint not found")

/-- A handle whose statistics query succeeds and whose close succeeds. -/
def contOK : Container :=
  { statistics := .ok { Timestamp := 5, Network := [⟨100, 50, "ep1"⟩] }
    close := .ok () }

/-- A handle whose statistics query and close both fail. -/
def contBothFail : Container :=
  { statistics := .error (.str "query failed")
    close := .error (.str "close failed") }

/-- A handle whose statistics query succeeds but whose close fails. -/
def contCloseFail : Container :=
  { statistics := .ok { Timestamp := 5, Network := [⟨100, 50, "ep1"⟩] }
    close := .error (.str "close failed") }

/-- A handle whose statistics query succeeds with an empty network slice. -/
def contNoNet : Container :=
  { statistics := .ok { Timestamp := 7, Network := [] }
    close := .ok () }

/-- Shim for the fetch scenarios: container `a` behaves normally, `bf`
fails both query and close, `cf` fails only close, `c` succeeds with
timestamp 6, `d` succeeds with no network counters, everything else
fails to open. -/
def shimFetch : HcsShim :=
  { GetContainers := fun _ => .ok [⟨"a"⟩, ⟨"b"⟩, ⟨"c"⟩]
    GetHNSEndpointByID := endpointTable
    OpenContainer := fun id =>
      if id = "a" then .ok contOK
      else if id = "bf" then .ok contBothFail
      else if id = "cf" then .ok contCloseFail
      else if id = "c" then
        .ok { statistics := .ok { Timestamp := 6, Network := [⟨3, 4, "ep3"⟩] }
              close := .ok () }
      else if id = "d" then .ok contNoNet
      else .error (.str "open failed") }

/-- Shim whose container enumeration fails. -/
def shimEnumFail : HcsShim :=
  { GetContainers := fun _ => .error (.str "enumeration failed")
    GetHNSEndpointByID := endpointTable
    OpenContainer := fun _ => .error (.str "open failed") }

/-- Shim enumerating containers `a` and `d`; `d` has no network counters. -/
def shimWithEmpty : HcsShim :=
  { GetContainers := fun _ => .ok [⟨"a"⟩, ⟨"d"⟩]
    GetHNSEndpointByID := endpointTable
    OpenContainer := shimFetch.OpenContainer }

theorem dedupFirst_not_seen :
    ∀ (l : List InterfaceStats) (seen : List String) (i : InterfaceStats),
      i ∈ dedupFirst l seen → i.Name ∉ seen
  | [], seen, i, hi => by simp [dedupFirst] at hi
  | j :: rest, seen, i, hi => by
      cases hc : seen.contains j.Name with
      | true =>
          rw [dedupFirst] at hi
          simp only [hc, if_true] at hi
          exact dedupFirst_not_seen rest seen i hi
      | false =>
          rw [dedupFirst] at hi
          simp only [hc, Bool.false_eq_true, if_false] at hi
          rcases List.mem_cons.mp hi with h | h
          · subst h
            simpa [List.contains, List.elem_eq_mem] using hc
          · have hni := dedupFirst_not_seen rest (seen ++ [j.Name]) i h
            intro hmem
            exact hni (List.mem_append_left _ hmem)

theorem dedupFirst_names_nodup :
    ∀ (l : List InterfaceStats) (seen : List String),
      ((dedupFirst l seen).map (fun i => i.Name)).Nodup
  | [], _ => by simp [dedupFirst]
  | j :: rest, seen => by
      cases hc : seen.contains j.Name with
      | true =>
          rw [dedupFirst]
          simp only [hc, if_true]
          exact dedupFirst_names_nodup rest seen
      | false =>
          rw [dedupFirst]
          simp only [hc, Bool.false_eq_true, if_false, List.map_cons, List.nodup_cons]
          refine ⟨?_, dedupFirst_names_nodup rest (seen ++ [j.Name])⟩
          intro hmem
          rcases List.mem_map.mp hmem with ⟨i, hi, hname⟩
          have hni := dedupFirst_not_seen rest (seen ++ [j.Name]) i hi
          exact hni (by simp [hname])

theorem dedupFirst_first_wins :
    ∀ (l : List InterfaceStats) (seen : List String) (i : InterfaceStats),
      i ∈ dedupFirst l seen →
      l.find? (fun j => j.Name == i.Name) = some i
  | [], seen, i, hi => by simp [dedupFirst] at hi
  | j :: rest, seen, i, hi => by
      cases hc : seen.contains j.Name with
      | true =>
          rw [dedupFirst] at hi
          simp only [hc, if_true] at hi
          have hns : i.Name ∉ seen := dedupFirst_not_seen rest seen i hi
          have hjs : j.Name ∈ seen := by
            simpa [List.contains, List.elem_eq_mem] using hc
          have hne : (j.Name == i.Name) = false := by
            simp only [beq_eq_false_iff_ne]
            intro heq
            exact hns (heq ▸ hjs)
          rw [List.find?_cons_of_neg _ (by simp [hne]), dedupFirst_first_wins rest seen i hi]
      | false =>
          rw [dedupFirst] at hi
          simp only [hc, Bool.false_eq_true, if_false] at hi
          rcases List.mem_cons.mp hi with h | h
          · subst h
            exact List.find?_cons_of_pos _ (by simp)
          · have hns := dedupFirst_not_seen rest (seen ++ [j.Name]) i h
            have hne : (j.Name == i.Name) = false := by
              simp only [beq_eq_false_iff_ne]
              intro heq
              exact hns (by simp [heq])
            rw [List.find?_cons_of_neg _ (by simp [hne]),
              dedupFirst_first_wins rest (seen ++ [j.Name]) i h]

theorem dedupFirst_complete :
    ∀ (l : List InterfaceStats) (seen : List String) (j : InterfaceStats),
      j ∈ l → j.Name ∉ seen →
      ∃ i ∈ dedupFirst l seen, i.Name = j.Name
  | [], _, j, hj, _ => by simp at hj
  | k :: rest, seen, j, hj, hns => by
      cases hc : seen.contains k.Name with
      | true =>
          rw [dedupFirst]
          simp only [hc, if_true]
          rcases List.mem_cons.mp hj with h | h
          · subst h
            exact absurd (by simpa [List.contains, List.elem_eq_mem] using hc) hns
          · exact dedupFirst_complete rest seen j h hns
      | false =>
          rw [dedupFirst]
          simp only [hc, Bool.false_eq_true, if_false]
          rcases List.mem_cons.mp hj with h | h
          · exact ⟨k, List.mem_cons_self _ _, by rw [h]⟩
          · by_cases hkj : j.Name = k.Name
            · exact ⟨k, List.mem_cons_self _ _, hkj.symm⟩
            · have hns' : j.Name ∉ seen ++ [k.Name] := by
                simp only [List.mem_append, List.mem_singleton]
                rintro (hmem | hmem)
                · exact hns hmem
                · exact hkj hmem
              rcases dedupFirst_complete rest (seen ++ [k.Name]) j h hns' with ⟨i, hi, hname⟩
              exact ⟨i, List.mem_cons_of_mem _ hi, hname⟩

/-- Characterisation of the loop of hcsStatsToNetworkStats: starting from
any already-accepted prefix (with its names as the adapter set), the loop
appends exactly the first-wins deduplication of the successfully resolved
counters. -/
theorem aggregateLoop_eq_dedupFirst (shim : HcsShim) :
    ∀ (l : List NetworkStats) (interfaces : List InterfaceStats),
      aggregateLoop shim l interfaces (interfaces.map (fun i => i.Name)) =
        interfaces ++
          dedupFirst (resolvedSeq shim l) (interfaces.map (fun i => i.Name))
  | [], interfaces => by simp [aggregateLoop, resolvedSeq, dedupFirst]
  | stat :: rest, interfaces => by
      cases h : hcsStatsToInterfaceStats shim stat with
      | error e =>
          have h2 : resolvedSeq shim (stat :: rest) = resolvedSeq shim rest := by
            simp [resolvedSeq, List.filterMap_cons, h, Except.toOption]
          rw [aggregateLoop]
          simp only [h]
          rw [h2, aggregateLoop_eq_dedupFirst shim rest interfaces]
      | ok iStat =>
          have h2 : resolvedSeq shim (stat :: rest) = iStat :: resolvedSeq shim rest := by
            simp [resolvedSeq, List.filterMap_cons, h, Except.toOption]
          rw [aggregateLoop]
          simp only [h]
          cases hc : (interfaces.map (fun i => i.Name)).contains iStat.Name with
          | true =>
              simp only [if_true]
              rw [h2, aggregateLoop_eq_dedupFirst shim rest interfaces]
              rw [dedupFirst]
              simp only [hc, if_true]
          | false =>
              simp only [Bool.false_eq_true, if_false]
              have hmap : (interfaces ++ [iStat]).map (fun i => i.Name) =
                  interfaces.map (fun i => i.Name) ++ [iStat.Name] := by simp
              rw [← hmap, aggregateLoop_eq_dedupFirst shim rest (interfaces ++ [iStat])]
              rw [h2, dedupFirst]
              simp only [hc, Bool.false_eq_true, if_false, hmap, List.append_assoc,
                List.singleton_append]

/-- The `Interfaces` field produced by hcsStatsToNetworkStats is the
first-wins deduplication of the successfully resolved counters. -/
theorem hcsStatsToNetworkStats_interfaces_eq
    (shim : HcsShim) (t : Nat) (l : List NetworkStats) :
    (hcsStatsToNetworkStats shim t l).Interfaces =
      dedupFirst (resolvedSeq shim l) [] := by
  have h := aggregateLoop_eq_dedupFirst shim l []
  simpa [hcsStatsToNetworkStats] using h

/-! ### Claim theorems about fetchContainerStats -/

/-- C1: when `OpenContainer` succeeds, `fetchContainerStats` invokes
`Close` exactly once on every exit path (whether the statistics query
succeeds or fails); when `OpenContainer` fails, `Close` is never
invoked. -/
theorem fetchContainerStats_close_exactly_once
    (shim : HcsShim) (c : ContainerProperties) :
    (fetchContainerStats shim c).2 =
      match shim.OpenContainer c.ID with
      | .ok _ => 1
      | .error _ => 0 := by
  unfold fetchContainerStats
  cases shim.OpenContainer c.ID <;> rfl

/-- C2: if both the statistics query and the close fail, the error
returned by `fetchContainerStats` is the wrapped error carrying both
causes, whose rendered message names the retrieval failure and the
release failure together. -/
theorem fetchContainerStats_error_chains_both
    (shim : HcsShim) (c : ContainerProperties) (cont : Container)
    (qe ce : GoError)
    (hopen : shim.OpenContainer c.ID = .ok cont)
    (hq : cont.statistics = .error qe)
    (hcl : cont.close = .error ce) :
    (fetchContainerStats shim c).1 = .error (GoError.closeAfterError qe ce) ∧
    (GoError.closeAfterError qe ce).render =
      "failed to close container after error " ++ qe.render ++
        "; close error: " ++ ce.render := by
  refine ⟨?_, rfl⟩
  unfold fetchContainerStats
  rw [hopen]
  simp only [hq, hcl]

/-- C2 witness: a container whose query and close both fail yields the
wrapped error. -/
theorem fetchContainerStats_error_chains_both_witness :
    (fetchContainerStats shimFetch ⟨"bf"⟩).1 =
      .error (GoError.closeAfterError (.str "query failed") (.str "close failed")) :=
  (fetchContainerStats_error_chains_both shimFetch ⟨"bf"⟩ contBothFail
    (.str "query failed") (.str "close failed") rfl rfl rfl).1

/-- C9: if the statistics query succeeds but the close fails, the close
error is surfaced as `fetchContainerStats`'s own error, so the fetch
fails even though the data had been retrieved. -/
theorem fetchContainerStats_release_error_surfaced
    (shim : HcsShim) (c : ContainerProperties) (cont : Container)
    (s : Statistics) (ce : GoError)
    (hopen : shim.OpenContainer c.ID = .ok cont)
    (hq : cont.statistics = .ok s)
    (hcl : cont.close = .error ce) :
    (fetchContainerStats shim c).1 = .error ce := by
  unfold fetchContainerStats
  rw [hopen]
  simp only [hq, hcl]

/-- C9 witness: a container whose close alone fails yields the close
error from the fetch. -/
theorem fetchContainerStats_release_error_surfaced_witness :
    (fetchContainerStats shimFetch ⟨"cf"⟩).1 = .error (.str "close failed") :=
  fetchContainerStats_release_error_surfaced shimFetch ⟨"cf"⟩ contCloseFail
    { Timestamp := 5, Network := [⟨100, 50, "ep1"⟩] } (.str "close failed")
    rfl rfl rfl

/-! ### Claim theorems about hcsStatsToNetworkStats -/

/-- C3: the interface list produced by `hcsStatsToNetworkStats` contains
each resolved name at most once; every entry equals the first
successfully resolved counter carrying its name (first occurrence wins,
with its rx/tx values), and every successfully resolved counter's name
does appear. -/
theorem hcsStatsToNetworkStats_dedup_first_wins
    (shim : HcsShim) (t : Nat) (l : List NetworkStats) :
    (((hcsStatsToNetworkStats shim t l).Interfaces.map (fun i => i.Name)).Nodup) ∧
    (∀ i ∈ (hcsStatsToNetworkStats shim t l).Interfaces,
        (resolvedSeq shim l).find? (fun j => j.Name == i.Name) = some i) ∧
    (∀ j ∈ resolvedSeq shim l,
        ∃ i ∈ (hcsStatsToNetworkStats shim t l).Interfaces, i.Name = j.Name) := by
  refine ⟨?_, ?_, ?_⟩
  · rw [hcsStatsToNetworkStats_interfaces_eq]
    exact dedupFirst_names_nodup _ _
  · intro i hi
    rw [hcsStatsToNetworkStats_interfaces_eq] at hi
    exact dedupFirst_first_wins _ _ i hi
  · intro j hj
    rw [hcsStatsToNetworkStats_interfaces_eq]
    exact dedupFirst_complete _ _ j hj (by simp)

/-- C3 witness: two counters both resolving to `eth0` yield one entry,
carrying the first counter's rx/tx values. -/
theorem hcsStatsToNetworkStats_dedup_first_wins_witness :
    (resolvedSeq shimFetch [⟨100, 50, "ep1"⟩, ⟨7, 8, "ep2"⟩]).find?
        (fun j => j.Name == "eth0") =
      some { Name := "eth0", RxBytes := some 100, TxBytes := some 50 } :=
  (hcsStatsToNetworkStats_dedup_first_wins shimFetch 0
      [⟨100, 50, "ep1"⟩, ⟨7, 8, "ep2"⟩]).2.1
    { Name := "eth0", RxBytes := some 100, TxBytes := some 50 } (by decide)

/-- C4: when the produced interface list is non-empty the embedded
primary `InterfaceStats` equals its first element by value; on an empty
counter sequence the interface list is empty and the primary stays the
Go zero value (the representation of an absent primary). -/
theorem hcsStatsToNetworkStats_primary_is_first
    (shim : HcsShim) (t : Nat) (l : List NetworkStats) :
    (∀ i rest, (hcsStatsToNetworkStats shim t l).Interfaces = i :: rest →
        (hcsStatsToNetworkStats shim t l).InterfaceStats = i) ∧
    (l = [] → (hcsStatsToNetworkStats shim t l).Interfaces = [] ∧
        (hcsStatsToNetworkStats shim t l).InterfaceStats = zeroInterfaceStats) := by
  have hIfc : (hcsStatsToNetworkStats shim t l).Interfaces =
      aggregateLoop shim l [] [] := rfl
  have hPrim : (hcsStatsToNetworkStats shim t l).InterfaceStats =
      match aggregateLoop shim l [] [] with
      | [] => zeroInterfaceStats
      | i :: _ => i := rfl
  constructor
  · intro i rest h
    rw [hIfc] at h
    rw [hPrim, h]
  · intro h
    subst h
    exact ⟨rfl, rfl⟩

/-- C4 witness: a single resolvable counter makes the primary equal the
first entry; the empty counter sequence yields no interfaces and the
zero-valued primary. -/
theorem hcsStatsToNetworkStats_primary_is_first_witness :
    (hcsStatsToNetworkStats shimFetch 0 [⟨100, 50, "ep1"⟩]).InterfaceStats =
      { Name := "eth0", RxBytes := some 100, TxBytes := some 50 } ∧
    ((hcsStatsToNetworkStats shimFetch 0 []).Interfaces = [] ∧
      (hcsStatsToNetworkStats shimFetch 0 []).InterfaceStats = zeroInterfaceStats) :=
  ⟨(hcsStatsToNetworkStats_primary_is_first shimFetch 0 [⟨100, 50, "ep1"⟩]).1
      { Name := "eth0", RxBytes := some 100, TxBytes := some 50 } [] (by decide),
    (hcsStatsToNetworkStats_primary_is_first shimFetch 0 []).2 rfl⟩

/-- C5: hcsStatsToNetworkStats is total and isolates endpoint failures:
with three counters whose middle resolution fails (and distinct resolved
names), the produced interface list is exactly the first and third
resolutions, in input order. -/
theorem hcsStatsToNetworkStats_endpoint_isolation
    (shim : HcsShim) (t : Nat) (s1 s2 s3 : NetworkStats)
    (i1 i3 : InterfaceStats) (e : GoError)
    (h1 : hcsStatsToInterfaceStats shim s1 = .ok i1)
    (h2 : hcsStatsToInterfaceStats shim s2 = .error e)
    (h3 : hcsStatsToInterfaceStats shim s3 = .ok i3)
    (hne : i1.Name ≠ i3.Name) :
    (hcsStatsToNetworkStats shim t [s1, s2, s3]).Interfaces = [i1, i3] := by
  have hIfc : (hcsStatsToNetworkStats shim t [s1, s2, s3]).Interfaces =
      aggregateLoop shim [s1, s2, s3] [] [] := rfl
  have hb : (i3.Name == i1.Name) = false := by
    simp only [beq_eq_false_iff_ne]
    exact fun heq => hne heq.symm
  rw [hIfc]
  simp [aggregateLoop, h1, h2, h3, List.contains, List.elem, hb]

/-- C5 witness: counters on `ep1`, the unknown `epX` and `ep3` produce
the `eth0` and `eth1` interfaces, in order. -/
theorem hcsStatsToNetworkStats_endpoint_isolation_witness :
    (hcsStatsToNetworkStats shimFetch 0
        [⟨1, 2, "ep1"⟩, ⟨3, 4, "epX"⟩, ⟨5, 6, "ep3"⟩]).Interfaces =
      [{ Name := "eth0", RxBytes := some 1, TxBytes := some 2 },
        { Name := "eth1", RxBytes := some 5, TxBytes := some 6 }] :=
  hcsStatsToNetworkStats_endpoint_isolation shimFetch 0
    ⟨1, 2, "ep1"⟩ ⟨3, 4, "epX"⟩ ⟨5, 6, "ep3"⟩
    { Name := "eth0", RxBytes := some 1, TxBytes := some 2 }
    { Name := "eth1", RxBytes := some 5, TxBytes := some 6 }
    (.str "endpoint not found") rfl rfl rfl (by decide)

/-- C10: hcsStatsToNetworkStats always returns a populated result; when
its interface list is empty the embedded primary `InterfaceStats` is the
Go zero value (empty name, nil rx/tx pointers), which is how an absent
primary is represented. -/
theorem hcsStatsToNetworkStats_absent_primary_is_zero
    (shim : HcsShim) (t : Nat) (l : List NetworkStats)
    (h : (hcsStatsToNetworkStats shim t l).Interfaces = []) :
    (hcsStatsToNetworkStats shim t l).InterfaceStats = zeroInterfaceStats := by
  have hIfc : (hcsStatsToNetworkStats shim t l).Interfaces =
      aggregateLoop shim l [] [] := rfl
  have hPrim : (hcsStatsToNetworkStats shim t l).InterfaceStats =
      match aggregateLoop shim l [] [] with
      | [] => zeroInterfaceStats
      | i :: _ => i := rfl
  rw [hIfc] at h
  rw [hPrim, h]

/-- C10 witness: a counter whose endpoint cannot be resolved leaves the
interface list empty and the primary zero-valued. -/
theorem hcsStatsToNetworkStats_absent_primary_is_zero_witness :
    (hcsStatsToNetworkStats shimFetch 0 [⟨1, 2, "epX"⟩]).InterfaceStats =
      zeroInterfaceStats :=
  hcsStatsToNetworkStats_absent_primary_is_zero shimFetch 0 [⟨1, 2, "epX"⟩]
    (by decide)

/-! ### Lemmas about the map and the collector loop -/

theorem mapLookup_mapInsert_self :
    ∀ (m : List (String × NetworkStatsResult)) (k : String) (v : NetworkStatsResult),
      mapLookup (mapInsert m k v) k = some v
  | [], k, v => by simp [mapInsert, mapLookup]
  | p :: rest, k, v => by
      by_cases hp : p.1 = k
      · rw [mapInsert, if_pos hp]
        exact mapLookup_mapInsert_self rest k v
      · rw [mapInsert, if_neg hp, mapLookup, if_neg hp]
        exact mapLookup_mapInsert_self rest k v

theorem mapLookup_mapInsert_ne :
    ∀ (m : List (String × NetworkStatsResult)) (k : String)
      (v : NetworkStatsResult) (q : String), q ≠ k →
      mapLookup (mapInsert m k v) q = mapLookup m q
  | [], k, v, q, h => by
      have h' : ¬(k = q) := fun hh => h hh.symm
      simp [mapInsert, mapLookup, h']
  | p :: rest, k, v, q, h => by
      by_cases hp : p.1 = k
      · rw [mapInsert, if_pos hp, mapLookup,
          if_neg (fun hh : p.1 = q => h ((hp ▸ hh : k = q).symm))]
        exact mapLookup_mapInsert_ne rest k v q h
      · rw [mapInsert, if_neg hp, mapLookup, mapLookup]
        by_cases hq : p.1 = q
        · rw [if_pos hq, if_pos hq]
        · rw [if_neg hq, if_neg hq]
          exact mapLookup_mapInsert_ne rest k v q h

theorem collectLoop_lookup_notin (shim : HcsShim) :
    ∀ (cs : List ContainerProperties)
      (acc : List (String × NetworkStatsResult)) (id : String),
      id ∉ cs.map (fun c => c.ID) →
      mapLookup (collectLoop shim cs acc) id = mapLookup acc id
  | [], _, _, _ => rfl
  | c :: rest, acc, id, h => by
      have hid : ¬(id = c.ID ∨ id ∈ rest.map (fun c => c.ID)) := by
        simpa using h
      rw [not_or] at hid
      rw [collectLoop]
      cases hf : (fetchContainerStats shim c).1 with
      | error e =>
          simp only [hf]
          exact collectLoop_lookup_notin shim rest acc id hid.2
      | ok cstats =>
          simp only [hf]
          by_cases hn : cstats.Network.length > 0
          · rw [if_pos hn,
              collectLoop_lookup_notin shim rest _ id hid.2]
            exact mapLookup_mapInsert_ne acc c.ID _ id hid.1
          · rw [if_neg hn]
            exact collectLoop_lookup_notin shim rest acc id hid.2

/-- Characterisation of the collector loop at an enumerated container
with pairwise distinct container IDs: the final map has an entry for it
exactly when its fetch succeeded with a non-empty raw network slice. -/
theorem collectLoop_lookup (shim : HcsShim) :
    ∀ (cs : List ContainerProperties)
      (acc : List (String × NetworkStatsResult)) (c : ContainerProperties),
      c ∈ cs → ((cs.map (fun c => c.ID)).Nodup) →
      mapLookup (collectLoop shim cs acc) c.ID =
        match (fetchContainerStats shim c).1 with
        | .error _ => mapLookup acc c.ID
        | .ok s =>
            if s.Network.length > 0 then
              some (hcsStatsToNetworkStats shim s.Timestamp s.Network)
            else mapLookup acc c.ID
  | [], _, c, hc, _ => absurd hc (List.not_mem_nil c)
  | h' :: rest, acc, c, hc, hnodup => by
      rw [List.map_cons, List.nodup_cons] at hnodup
      rcases List.mem_cons.mp hc with he | he
      · subst he
        rw [collectLoop]
        cases hf : (fetchContainerStats shim c).1 with
        | error e =>
            simp only [hf]
            exact collectLoop_lookup_notin shim rest acc c.ID hnodup.1
        | ok cstats =>
            simp only [hf]
            by_cases hn : cstats.Network.length > 0
            · rw [if_pos hn, if_pos hn,
                collectLoop_lookup_notin shim rest _ c.ID hnodup.1]
              exact mapLookup_mapInsert_self acc c.ID _
            · rw [if_neg hn, if_neg hn]
              exact collectLoop_lookup_notin shim rest acc c.ID hnodup.1
      · have hne : c.ID ≠ h'.ID := by
          intro hh
          exact hnodup.1 (hh ▸ List.mem_map_of_mem (fun c => c.ID) he)
        rw [collectLoop]
        cases hf : (fetchContainerStats shim h').1 with
        | error e =>
            simp only [hf]
            exact collectLoop_lookup shim rest acc c he hnodup.2
        | ok cstats =>
            simp only [hf]
            by_cases hn : cstats.Network.length > 0
            · rw [if_pos hn,
                collectLoop_lookup shim rest _ c he hnodup.2,
                mapLookup_mapInsert_ne acc h'.ID _ c.ID hne]
            · rw [if_neg hn]
              exact collectLoop_lookup shim rest acc c he hnodup.2

/-! ### Claim theorems about listContainerNetworkStats -/

/-- C6: a fetch failure for one container does not abort the collection:
with three enumerated containers whose middle one fails to open, the map
is returned without error, holds entries for the first and third
containers and omits the second. -/
theorem listContainerNetworkStats_container_isolation
    (shim : HcsShim) (c1 c2 c3 : ContainerProperties)
    (s1 s3 : Statistics) (e : GoError)
    (henum : shim.GetContainers { Types := ["Container"] } = .ok [c1, c2, c3])
    (h1 : (fetchContainerStats shim c1).1 = .ok s1) (hn1 : s1.Network ≠ [])
    (h2 : shim.OpenContainer c2.ID = .error e)
    (h3 : (fetchContainerStats shim c3).1 = .ok s3) (hn3 : s3.Network ≠ [])
    (h12 : c1.ID ≠ c2.ID) (h13 : c1.ID ≠ c3.ID) (h23 : c2.ID ≠ c3.ID) :
    ∃ m, listContainerNetworkStats shim = .ok m ∧
      mapLookup m c1.ID =
        some (hcsStatsToNetworkStats shim s1.Timestamp s1.Network) ∧
      mapLookup m c2.ID = none ∧
      mapLookup m c3.ID =
        some (hcsStatsToNetworkStats shim s3.Timestamp s3.Network) := by
  have hf2 : (fetchContainerStats shim c2).1 = .error e := by
    rw [fetchContainerStats, h2]
  have hnodup : (([c1, c2, c3] : List ContainerProperties).map
      (fun c => c.ID)).Nodup := by
    simp [h12, h13, h23]
  refine ⟨collectLoop shim [c1, c2, c3] [], ?_, ?_, ?_, ?_⟩
  · simp only [listContainerNetworkStats, henum]
  · rw [collectLoop_lookup shim _ [] c1 (by simp) hnodup]
    simp only [h1]
    rw [if_pos (List.length_pos.mpr hn1)]
  · rw [collectLoop_lookup shim _ [] c2 (by simp) hnodup]
    simp only [hf2]
    rfl
  · rw [collectLoop_lookup shim _ [] c3 (by simp) hnodup]
    simp only [h3]
    rw [if_pos (List.length_pos.mpr hn3)]

/-- C6 witness: containers `a`, `b`, `c` where `b` fails to open yield a
map with entries for `a` and `c` only. -/
theorem listContainerNetworkStats_container_isolation_witness :
    ∃ m, listContainerNetworkStats shimFetch = .ok m ∧
      mapLookup m "a" =
        some (hcsStatsToNetworkStats shimFetch 5 [⟨100, 50, "ep1"⟩]) ∧
      mapLookup m "b" = none ∧
      mapLookup m "c" =
        some (hcsStatsToNetworkStats shimFetch 6 [⟨3, 4, "ep3"⟩]) :=
  listContainerNetworkStats_container_isolation shimFetch ⟨"a"⟩ ⟨"b"⟩ ⟨"c"⟩
    { Timestamp := 5, Network := [⟨100, 50, "ep1"⟩] }
    { Timestamp := 6, Network := [⟨3, 4, "ep3"⟩] }
    (.str "open failed") rfl rfl (by decide) rfl rfl (by decide)
    (by decide) (by decide) (by decide)

/-- C7: an enumeration failure is returned as the collection's own error
with no partial mapping; once enumeration succeeds the collection always
returns a mapping without error. -/
theorem listContainerNetworkStats_enum_propagation (shim : HcsShim) :
    (∀ e, shim.GetContainers { Types := ["Container"] } = .error e →
        listContainerNetworkStats shim = .error e) ∧
    (∀ cs, shim.GetContainers { Types := ["Container"] } = .ok cs →
        ∃ m, listContainerNetworkStats shim = .ok m) := by
  constructor
  · intro e he
    simp only [listContainerNetworkStats, he]
  · intro cs hcs
    exact ⟨collectLoop shim cs [], by simp only [listContainerNetworkStats, hcs]⟩

/-- C7 witness: a failing enumeration propagates its error; a successful
one yields a mapping. -/
theorem listContainerNetworkStats_enum_propagation_witness :
    listContainerNetworkStats shimEnumFail = .error (.str "enumeration failed") ∧
    ∃ m, listContainerNetworkStats shimFetch = .ok m :=
  ⟨(listContainerNetworkStats_enum_propagation shimEnumFail).1
      (.str "enumeration failed") rfl,
    (listContainerNetworkStats_enum_propagation shimFetch).2
      [⟨"a"⟩, ⟨"b"⟩, ⟨"c"⟩] rfl⟩

/-- C8: an enumerated container (under pairwise distinct IDs) has an
entry in the returned map exactly when its fetch succeeded and its raw
statistics held at least one network counter; the entry is then the
aggregation of those counters (which may have an empty interface list
when every endpoint resolution fails). -/
theorem listContainerNetworkStats_entry_iff
    (shim : HcsShim) (cs : List ContainerProperties)
    (henum : shim.GetContainers { Types := ["Container"] } = .ok cs)
    (hnodup : ((cs.map (fun c => c.ID)).Nodup))
    (c : ContainerProperties) (hc : c ∈ cs) :
    ∃ m, listContainerNetworkStats shim = .ok m ∧
      mapLookup m c.ID =
        (match (fetchContainerStats shim c).1 with
          | .error _ => none
          | .ok s =>
              if s.Network.length > 0 then
                some (hcsStatsToNetworkStats shim s.Timestamp s.Network)
              else none) := by
  refine ⟨collectLoop shim cs [], ?_, ?_⟩
  · simp only [listContainerNetworkStats, henum]
  · rw [collectLoop_lookup shim cs [] c hc hnodup]
    cases (fetchContainerStats shim c).1 with
    | error e => rfl
    | ok s =>
        dsimp only
        by_cases hn : s.Network.length > 0
        · rw [if_pos hn, if_pos hn]
        · rw [if_neg hn, if_neg hn]
          rfl

/-- C8 witness: container `d` fetches successfully but has zero network
counters, so the returned map has no entry for it. -/
theorem listContainerNetworkStats_entry_iff_witness :
    ∃ m, listContainerNetworkStats shimWithEmpty = .ok m ∧
      mapLookup m "d" = none := by
  obtain ⟨m, hm, hl⟩ := listContainerNetworkStats_entry_iff shimWithEmpty
    [⟨"a"⟩, ⟨"d"⟩] rfl (by decide) ⟨"d"⟩ (by decide)
  exact ⟨m, hm, hl.trans (by decide)⟩

end CriStatsWindows
